import Mathlib

/-!
Verification of the offline pipeline executor (`src/pipeline_runner.py`)
against its natural-language specification.

The Python source is shallowly embedded: pure helpers become Lean
functions, the stage executor and run driver become functions producing an
explicit trace of filesystem side effects together with an outcome value,
and external primitives (the filesystem, the processor subprocess, file
locks) are supplied as explicit model state.  `hashlib.sha256` is embedded
as a concrete executable SHA-256 over UTF-8 byte lists.
-/

set_option maxRecDepth 100000

namespace PipelineRunner

/-! ## UTF-8 encoding of strings (for hashing, as in `str.encode("utf-8")`) -/

/-- UTF-8 encoding of a single character, as a list of byte values. -/
def utf8Char (c : Char) : List Nat :=
  let n := c.toNat
  if n < 0x80 then [n]
  else if n < 0x800 then
    [0xC0 + n / 0x40, 0x80 + n % 0x40]
  else if n < 0x10000 then
    [0xE0 + n / 0x1000, 0x80 + (n / 0x40) % 0x40, 0x80 + n % 0x40]
  else
    [0xF0 + n / 0x40000, 0x80 + (n / 0x1000) % 0x40,
     0x80 + (n / 0x40) % 0x40, 0x80 + n % 0x40]

/-- UTF-8 encoding of a string as a list of byte values. -/
def utf8Bytes (s : String) : List Nat :=
  s.data.flatMap utf8Char

/-! ## SHA-256 (embedding of `hashlib.sha256`)

Words are `Nat` taken modulo `2^32` explicitly. -/

def w32 : Nat := 4294967296

def wadd (a b : Nat) : Nat := (a + b) % w32

def rotr (n x : Nat) : Nat :=
  ((x >>> n) ||| (x <<< (32 - n))) % w32

/-- The 64 SHA-256 round constants (fractional parts of cube roots of the
first 64 primes), in decimal. -/
def sha256K : List Nat :=
  [1116352408, 1899447441, 3049323471, 3921009573, 961987163, 1508970993,
   2453635748, 2870763221, 3624381080, 310598401, 607225278, 1426881987,
   1925078388, 2162078206, 2614888103, 3248222580, 3835390401, 4022224774,
   264347078, 604807628, 770255983, 1249150122, 1555081692, 1996064986,
   2554220882, 2821834349, 2952996808, 3210313671, 3336571891, 3584528711,
   113926993, 338241895, 666307205, 773529912, 1294757372, 1396182291,
   1695183700, 1986661051, 2177026350, 2456956037, 2730485921, 2820302411,
   3259730800, 3345764771, 3516065817, 3600352804, 4094571909, 275423344,
   430227734, 506948616, 659060556, 883997877, 958139571, 1322822218,
   1537002063, 1747873779, 1955562222, 2024104815, 2227730452, 2361852424,
   2428436474, 2756734187, 3204031479, 3329325298]

/-- The initial SHA-256 hash state (fractional parts of square roots of
the first 8 primes), in decimal. -/
def sha256Init : List Nat :=
  [1779033703, 3144134277, 1013904242, 2773480762,
   1359893119, 2600822924, 528734635, 1541459225]

/-- Message padding: append `0x80`, zeros to 56 mod 64, then 64-bit big-endian bit length. -/
def sha256Pad (msg : List Nat) : List Nat :=
  let len := msg.length
  let bitLen := len * 8
  let padZeros := (119 - len % 64) % 64
  msg ++ [0x80] ++ List.replicate padZeros 0 ++
    [bitLen / 2^56 % 256, bitLen / 2^48 % 256, bitLen / 2^40 % 256, bitLen / 2^32 % 256,
     bitLen / 2^24 % 256, bitLen / 2^16 % 256, bitLen / 2^8 % 256, bitLen % 256]

/-- Split a list into chunks of `n` elements (fuel-driven structural recursion). -/
def chunksFuel (n : Nat) : Nat → List Nat → List (List Nat)
  | 0, _ => []
  | _, [] => []
  | fuel + 1, xs => xs.take n :: chunksFuel n fuel (xs.drop n)

def chunks (n : Nat) (l : List Nat) : List (List Nat) :=
  chunksFuel n l.length l

/-- Combine 4 consecutive bytes into big-endian 32-bit words. -/
def bytesToWords : List Nat → List Nat
  | b0 :: b1 :: b2 :: b3 :: rest =>
      (b0 * 2^24 + b1 * 2^16 + b2 * 2^8 + b3) :: bytesToWords rest
  | _ => []

def smallSigma0 (x : Nat) : Nat := rotr 7 x ^^^ rotr 18 x ^^^ (x >>> 3)
def smallSigma1 (x : Nat) : Nat := rotr 17 x ^^^ rotr 19 x ^^^ (x >>> 10)
def bigSigma0 (x : Nat) : Nat := rotr 2 x ^^^ rotr 13 x ^^^ rotr 22 x
def bigSigma1 (x : Nat) : Nat := rotr 6 x ^^^ rotr 11 x ^^^ rotr 25 x

/-- Extend 16 message words into the 64-entry message schedule. -/
def sha256Schedule (ws : List Nat) (i : Nat) : List Nat :=
  match i with
  | 0 => ws
  | n + 1 =>
    let prev := sha256Schedule ws n
    let j := prev.length
    prev ++ [wadd (wadd (prev.getD (j - 16) 0) (smallSigma0 (prev.getD (j - 15) 0)))
                  (wadd (prev.getD (j - 7) 0) (smallSigma1 (prev.getD (j - 2) 0)))]

/-- One round of the SHA-256 compression function. -/
def sha256Round (st : List Nat) (kw : Nat × Nat) : List Nat :=
  match st with
  | [a, b, c, d, e, f, g, h] =>
    let ch := (e &&& f) ^^^ ((w32 - 1 - e) &&& g)
    let maj := (a &&& b) ^^^ (a &&& c) ^^^ (b &&& c)
    let t1 := wadd (wadd (wadd h (bigSigma1 e)) (wadd ch kw.1)) kw.2
    let t2 := wadd (bigSigma0 a) maj
    [wadd t1 t2, a, b, c, wadd d t1, e, f, g]
  | other => other

/-- Process one 64-byte block, updating the 8-word hash state. -/
def sha256Block (h : List Nat) (block : List Nat) : List Nat :=
  let ws := sha256Schedule (bytesToWords block) 48
  let st := (sha256K.zip ws |>.map (fun p => (p.2, p.1))).foldl sha256Round h
  (h.zip st).map (fun p => wadd p.1 p.2)

def sha256Words (msg : List Nat) : List Nat :=
  (chunks 64 (sha256Pad msg)).foldl sha256Block sha256Init

def hexDigit (n : Nat) : Char :=
  if n < 10 then Char.ofNat (48 + n) else Char.ofNat (87 + n)

/-- Lower-case hex rendering of a 32-bit word (8 hex digits). -/
def hex32 (x : Nat) : String :=
  String.mk [hexDigit (x / 2^28 % 16), hexDigit (x / 2^24 % 16),
             hexDigit (x / 2^20 % 16), hexDigit (x / 2^16 % 16),
             hexDigit (x / 2^12 % 16), hexDigit (x / 2^8 % 16),
             hexDigit (x / 2^4 % 16), hexDigit (x % 16)]

/-- SHA-256 hex digest of the UTF-8 bytes of a string: the embedding of
`hashlib.sha256(s.encode("utf-8")).hexdigest()`. -/
def sha256hex (s : String) : String :=
  String.join ((sha256Words (utf8Bytes s)).map hex32)

/-! ## JSON values and `json.dumps(..., sort_keys=True)`

Only the scalar JSON values that appear in stage params and audit entries
are modelled. -/

inductive JVal where
  | null
  | bool (b : Bool)
  | num (n : Int)
  | str (s : String)
deriving DecidableEq, Repr

def hex4 (n : Nat) : String :=
  String.mk [hexDigit (n / 2^12 % 16), hexDigit (n / 2^8 % 16),
             hexDigit (n / 2^4 % 16), hexDigit (n % 16)]

/-- JSON string escaping as `json.dumps` with `ensure_ascii=True` produces it. -/
def jsonEscapeChar (c : Char) : String :=
  if c = '"' then "\\\""
  else if c = '\\' then "\\\\"
  else if c = '\n' then "\\n"
  else if c = '\t' then "\\t"
  else if c = '\r' then "\\r"
  else if c.toNat < 32 || 127 ≤ c.toNat then "\\u" ++ hex4 c.toNat
  else String.singleton c

def jsonQuote (s : String) : String :=
  "\"" ++ String.join (s.data.map jsonEscapeChar) ++ "\""

def jsonDumpVal : JVal → String
  | .null => "null"
  | .bool true => "true"
  | .bool false => "false"
  | .num n => toString n
  | .str s => jsonQuote s

/-- Lexicographic `≤` on strings by character code points (Python's
string ordering for `sort_keys`). -/
def strLeChars : List Char → List Char → Bool
  | [], _ => true
  | _ :: _, [] => false
  | a :: as, b :: bs =>
      if a.toNat < b.toNat then true
      else if b.toNat < a.toNat then false
      else strLeChars as bs

def strLe (a b : String) : Bool := strLeChars a.data b.data

/-- Insert a key/value pair into a key-sorted association list. -/
def insertByKey (x : String × JVal) : List (String × JVal) → List (String × JVal)
  | [] => [x]
  | y :: ys => if strLe x.1 y.1 then x :: y :: ys else y :: insertByKey x ys

def sortByKey (l : List (String × JVal)) : List (String × JVal) :=
  l.foldr insertByKey []

/-- Embedding of `json.dumps(obj, sort_keys=True)` for a flat JSON object: keys sorted
lexicographically, default separators. -/
def json_dumps_sorted (obj : List (String × JVal)) : String :=
  "\x7b" ++
    String.intercalate ", "
      ((sortByKey obj).map (fun kv => jsonQuote kv.1 ++ ": " ++ jsonDumpVal kv.2)) ++
  "\x7d"

/-! ## Fingerprint (`compute_idempotency_key`, `get_processor_version`)

The filesystem is a map from path to optional file contents; the
processor's mtime is `none` when `os.path.getmtime` raises `OSError`. -/

/-- Source `get_processor_version`: `"v" + str(int(mtime))`, `"v0"` on `OSError`. -/
def get_processor_version : Option Int → String
  | some t => "v" ++ toString t
  | none => "v0"

/-- Source `sha256_file`: digest of the file's byte contents. -/
def sha256_file (contents : String) : String := sha256hex contents

/-- Source `compute_idempotency_key(inputs, processor_path, params)`: per-input
content hash or `"missing"`, then processor version, then sorted-keys JSON
of params when non-empty, joined with `"|"` and hashed. -/
def compute_idempotency_key (files : String → Option String) (inputs : List String)
    (procMtime : Option Int) (params : List (String × JVal)) : String :=
  let parts := inputs.map (fun p =>
    match files p with
    | some c => sha256_file c
    | none => "missing")
  let parts := parts ++ [get_processor_version procMtime]
  let parts := if params.isEmpty then parts else parts ++ [json_dumps_sorted params]
  sha256hex (String.intercalate "|" parts)

/-! ## Offline guard (`BANNED_MODULE_PREFIXES`, `scan_for_banned_imports`)

A processor source file is represented by the `Import`/`ImportFrom` nodes
`ast.walk` yields from its parsed AST; other nodes (in particular string
literals) are never inspected by the scan. -/

def BANNED_MODULE_PREFIXES : List String :=
  ["requests", "socket", "http.client", "urllib", "urllib3", "httpx", "aiohttp", "asyncio"]

def strStartsWith (s p : String) : Bool := p.data.isPrefixOf s.data

/-- Source test `mod.startswith(BANNED_MODULE_PREFIXES)`: Python string-prefix match
against the tuple. -/
def bannedPrefixMatch (m : String) : Bool :=
  BANNED_MODULE_PREFIXES.any (fun b => strStartsWith m b)

inductive PyImport where
  | imp (names : List String)
  | impFrom (module : Option String)
deriving DecidableEq, Repr

/-- Source `scan_for_banned_imports`: walk the AST's import nodes and collect
every imported module name that prefix-matches a banned name. -/
def scan_for_banned_imports (stmts : List PyImport) : List String :=
  stmts.foldl (fun acc st =>
    match st with
    | .imp names => acc ++ names.filter bannedPrefixMatch
    | .impFrom module =>
        let m := module.getD ""
        if bannedPrefixMatch m then acc ++ [m] else acc) []

/-! ## Stage lock (`FileLock.acquire`)

`acquire` opens the lock file and calls `fcntl.flock(fh, fcntl.LOCK_EX)`
(no `LOCK_NB`, no timeout): when the lock is free the call returns with
the lock held, otherwise it blocks until the holder releases it. -/

inductive AcquireOutcome where
  | acquired
  | blocksUntilReleased
deriving DecidableEq, Repr

def FileLock.acquire (lockFree : Bool) : AcquireOutcome :=
  if lockFree then .acquired else .blocksUntilReleased

/-! ## Checkpoint (`read_checkpoint`)

`none` = file missing; `some none` = file exists but unreadable;
`some (some v)` = file parses with `lineOffset = v`. -/

def read_checkpoint : Option (Option Int) → Int
  | none => 0
  | some none => 0
  | some (some v) => v

/-! ## Audit log (`audit_log`)

An appended line is its body fields (insertion order `ts, stage, event,
message`, then `extra`) plus the `hash` and `prevHash` fields added before
writing.  The hash input is `prev_hash + json.dumps(entry, sort_keys=True)`
computed at the point where `entry` holds neither `hash` nor `prevHash`. -/

structure AuditStored where
  body : List (String × JVal)
  hash : String
  prevHash : String
deriving DecidableEq, Repr

def audit_entry_hash (prevHash : String) (body : List (String × JVal)) : String :=
  sha256hex (prevHash ++ json_dumps_sorted body)

def audit_append (prevHash : String) (body : List (String × JVal)) : AuditStored :=
  { body := body, hash := audit_entry_hash prevHash body, prevHash := prevHash }

/-- JSON string escaping as `json.dumps` with `ensure_ascii=False` (the
write-side call at line 265) produces it: non-ASCII characters are written
raw, only quotes, backslashes and control characters are escaped. -/
def jsonEscapeCharRaw (c : Char) : String :=
  if c = '"' then "\\\""
  else if c = '\\' then "\\\\"
  else if c = '\n' then "\\n"
  else if c = '\t' then "\\t"
  else if c = '\r' then "\\r"
  else if c.toNat < 32 then "\\u" ++ hex4 c.toNat
  else String.singleton c

def jsonQuoteRaw (s : String) : String :=
  "\"" ++ String.join (s.data.map jsonEscapeCharRaw) ++ "\""

def jsonDumpValRaw : JVal → String
  | .null => "null"
  | .bool true => "true"
  | .bool false => "false"
  | .num n => toString n
  | .str s => jsonQuoteRaw s

/-- The line `audit_log` appends for a stored entry:
`json.dumps(entry, ensure_ascii=False)` in insertion order — the body
fields, then `hash`, then `prevHash`. -/
def audit_entry_line (e : AuditStored) : String :=
  "\x7b" ++
    String.intercalate ", "
      ((e.body ++ [("hash", JVal.str e.hash), ("prevHash", JVal.str e.prevHash)]).map
        (fun kv : String × JVal => jsonQuoteRaw kv.1 ++ ": " ++ jsonDumpValRaw kv.2)) ++
  "\x7d"

/-- UTF-8 byte length of a stored entry's line in the audit file,
including its trailing newline. -/
def audit_line_bytes (e : AuditStored) : Nat :=
  (utf8Bytes (audit_entry_line e)).length + 1

/-- Model of the `prev_hash` read in `audit_log` (lines 236–250): the call
seeks to the final `min(4096, size)` bytes of the file, decodes them with
`errors="ignore"`, splits into lines and `json.loads` the last one, with
any exception falling back to `prev_hash = ""`.  The last line parses back
(yielding its stored `hash`) exactly when it lies entirely within the
4096-byte tail, i.e. when its byte length including the newline is at most
4096; otherwise `json.loads` sees a strict suffix of the line, which is
not a JSON document, and the fallback returns `""`. -/
def read_prev_hash (es : List AuditStored) : String :=
  match es.getLast? with
  | none => ""
  | some e => if audit_line_bytes e ≤ 4096 then e.hash else ""

/-- One `audit_log` call on a file already holding `es`: read the previous
hash from the tail of the file, build and append the new entry. -/
def audit_log_step (es : List AuditStored) (b : List (String × JVal)) : List AuditStored :=
  es ++ [audit_append (read_prev_hash es) b]

/-- Successive `audit_log` calls on one run's (initially empty) audit
file. -/
def audit_file (bodies : List (List (String × JVal))) : List AuditStored :=
  bodies.foldl audit_log_step []

/-- The hash of the last entry of a chain, `p` for the empty chain (the
value an ideal, untruncated read of the file's last line would yield). -/
def lastHashD (p : String) : List AuditStored → String
  | [] => p
  | e :: es => lastHashD e.hash es

/-- Sequential verification scan: recompute each stored hash from the
preceding entry's hash and the entry body (without `hash`/`prevHash`). -/
def audit_verify : String → List AuditStored → Bool
  | _, [] => true
  | prev, e :: es =>
      e.prevHash == prev && e.hash == audit_entry_hash prev e.body && audit_verify e.hash es

/-! ## Stage executor (`run_stage`)

The executor is embedded as a function from the stage configuration and a
snapshot of its environment to the ordered trace of filesystem effects it
performs plus its outcome.  Exceptions that escape `run_stage`
(offline-guard `RuntimeError`, `FileNotFoundError` for a missing
processor) and an indefinitely blocking lock acquisition are explicit
outcome constructors. -/

structure StageConfig where
  name : String
  inputs : List String
  params : List (String × JVal)
  idemEnabled : Bool
  checkpointEnabled : Bool
  maxAttempts : Nat
  retryableExitCodes : List Int
  offlineGuard : Bool
  useLock : Bool

structure StageWorld where
  files : String → Option String
  procMtime : Option Int
  procImports : List PyImport
  processorExists : Bool
  stageKey : Option String
  stageLastStatus : Option String
  markerExists : Bool
  lockFree : Bool
  exitCode : Nat → Int
  progressAfter : Nat → Option (Option Int)

inductive Event where
  | auditSkip
  | auditStart (attempt : Nat)
  | auditFail (attempt : Nat) (exitCode : Int)
  | auditFailFinal (attempts : Nat)
  | auditDone
  | spawnProcessor (attempt : Nat)
  | writeMarker
  | writeCheckpoint (offset : Int)
  | saveStageState (idemKey : Option String) (lastStatus : Option String)
  | sleepBackoff
deriving DecidableEq, Repr

inductive LoopRes where
  | okOut (attempts : Nat)
  | failedOut (attempts : Nat)
  | exhausted (attempts : Nat)
  | procMissing (attempts : Nat)
  | blocked
deriving DecidableEq, Repr

/-- The `should_retry(exit_code)` closure inside `run_stage`, evaluated when
`attempts = k`. -/
def should_retry (cfg : StageConfig) (attempts : Nat) (exitCode : Int) : Bool :=
  if cfg.maxAttempts ≤ attempts then false
  else if cfg.retryableExitCodes.isEmpty then true
  else cfg.retryableExitCodes.contains exitCode

/-- The `while attempts < max_attempts` loop of `run_stage`.  `fuel` is
`maxAttempts - done`; each attempt's `finally` block appends to history and
saves StageState (with the loaded, unmodified `idempotencyKey`). -/
def run_attempt_loop (cfg : StageConfig) (w : StageWorld) :
    Nat → Nat → List Event × LoopRes
  | 0, done => ([], .exhausted done)
  | fuel + 1, done =>
    let k := done + 1
    if !w.processorExists then
      ([.auditStart k, .saveStageState w.stageKey w.stageLastStatus], .procMissing k)
    else if cfg.useLock && !w.lockFree then
      ([.auditStart k], .blocked)
    else
      let ec := w.exitCode k
      if ec ≠ 0 then
        if should_retry cfg k ec && decide (k < cfg.maxAttempts) then
          let rest := run_attempt_loop cfg w fuel k
          ([.auditStart k, .spawnProcessor k, .auditFail k ec, .sleepBackoff,
            .saveStageState w.stageKey w.stageLastStatus] ++ rest.1, rest.2)
        else
          ([.auditStart k, .spawnProcessor k, .auditFail k ec,
            .saveStageState w.stageKey w.stageLastStatus], .failedOut k)
      else
        let cpEvents := if cfg.checkpointEnabled then
            match w.progressAfter k with
            | some (some v) => [Event.writeCheckpoint v]
            | _ => []
          else []
        ([.auditStart k, .spawnProcessor k, .writeMarker] ++ cpEvents ++
          [.saveStageState w.stageKey w.stageLastStatus], .okOut k)

inductive StageOutcome where
  | skipped
  | ok (attempts : Nat)
  | failed (attempts : Nat)
  | exnProcessorMissing
  | exnOfflineViolation (banned : List String)
  | blockedForever
deriving DecidableEq, Repr

/-- The freshly computed fingerprint of this stage's inputs, processor and
params (`idem_key` in `run_stage`). -/
def stage_idem_key (cfg : StageConfig) (w : StageWorld) : String :=
  compute_idempotency_key w.files cfg.inputs w.procMtime cfg.params

/-- The tail of `run_stage` after the attempt loop (lines 406–421 of the
source): record duration/status/attempts, set `idempotencyKey` when
idempotency is enabled (unconditionally on the outcome), save StageState,
audit `fail` or `done`, and return the result — unless an exception left
the loop, in which case none of this runs. -/
def finish_stage (cfg : StageConfig) (w : StageWorld)
    (r : List Event × LoopRes) : List Event × StageOutcome :=
  let finalKey := if cfg.idemEnabled then some (stage_idem_key cfg w) else w.stageKey
  match r.2 with
  | .procMissing _ => (r.1, .exnProcessorMissing)
  | .blocked => (r.1, .blockedForever)
  | .okOut k =>
      (r.1 ++ [.saveStageState finalKey (some "ok"), .auditDone], .ok k)
  | .failedOut k =>
      (r.1 ++ [.saveStageState finalKey (some "failed"), .auditFailFinal k], .failed k)
  | .exhausted k =>
      (r.1 ++ [.saveStageState finalKey (some "failed"), .auditFailFinal k], .failed k)

/-- Source `run_stage(stage, run_id)`: trace of effects plus outcome. -/
def run_stage (cfg : StageConfig) (w : StageWorld) : List Event × StageOutcome :=
  if cfg.offlineGuard && !(scan_for_banned_imports w.procImports).isEmpty then
    ([], .exnOfflineViolation (scan_for_banned_imports w.procImports))
  else if cfg.idemEnabled && w.stageKey == some (stage_idem_key cfg w)
      && w.markerExists then
    ([.auditSkip], .skipped)
  else
    finish_stage cfg w (run_attempt_loop cfg w cfg.maxAttempts 0)

/-! ## Run driver (`run_pipeline`, `main`) -/

inductive RunOutcome where
  | finished (state : String)
  | exnEscaped
  | blockedForever
deriving DecidableEq, Repr

structure RunModel where
  results : List String
  outcome : RunOutcome
  diskRunState : String
  runEndAudited : Bool
deriving DecidableEq, Repr

/-- The `for stage in pipeline["stages"]` loop with its `else` clause.  A
failed result breaks with state `failed`; an exception from `run_stage`
propagates uncaught (the persisted RunState stays `running` and no
`run_end` audit entry is written). -/
def run_pipeline_go (acc : List String) :
    List (StageConfig × StageWorld) → RunModel
  | [] => ⟨acc, .finished "completed", "completed", true⟩
  | (cfg, w) :: rest =>
    match (run_stage cfg w).2 with
    | .skipped => run_pipeline_go (acc ++ ["skipped"]) rest
    | .ok _ => run_pipeline_go (acc ++ ["ok"]) rest
    | .failed _ => ⟨acc ++ ["failed"], .finished "failed", "failed", true⟩
    | .exnProcessorMissing => ⟨acc, .exnEscaped, "running", false⟩
    | .exnOfflineViolation _ => ⟨acc, .exnEscaped, "running", false⟩
    | .blockedForever => ⟨acc, .blockedForever, "running", false⟩

def run_pipeline (stages : List (StageConfig × StageWorld)) : RunModel :=
  run_pipeline_go [] stages

/-- Process exit code of `main`: `main` calls `run_pipeline` and ignores
its return value, so the interpreter exits `0` whenever `run_pipeline`
returns and `1` when an exception escapes; `none` models a process that
never exits (indefinite blocking). -/
def main_exit_code (m : RunModel) : Option Nat :=
  match m.outcome with
  | .finished _ => some 0
  | .exnEscaped => some 1
  | .blockedForever => none

/-! ## Derived observations on traces -/

/-- The `idempotencyKey` recorded by the last StageState write in a trace
(`none` when the trace writes no StageState at all). -/
def finalSavedKey (tr : List Event) : Option (Option String) :=
  tr.foldl (fun acc e =>
    match e with
    | .saveStageState k _ => some k
    | _ => acc) none

/-- The module names an import node mentions (for `ImportFrom`,
`node.module or ""`). -/
def importNames : PyImport → List String
  | .imp names => names
  | .impFrom module => [module.getD ""]

/-! ## Spec-side definitions (written from the claims, for comparison) -/

/-- Modelled from the claim wording of C8: join, with `"|"`, the per-input
contributions (content hash, or the literal token `missing`), then the
processor version string `"v" + integer mtime`, then — only for non-empty
params — the sorted-keys JSON encoding of params; return the SHA-256 hex
digest of the UTF-8 bytes of the joined string. -/
def claimComputeKey (files : String → Option String) (inputs : List String)
    (mtime : Int) (params : List (String × JVal)) : String :=
  let contribs := inputs.map (fun p =>
    match files p with
    | some c => sha256hex c
    | none => "missing")
  let withVersion := contribs ++ ["v" ++ toString mtime]
  let allParts := if params = [] then withVersion else withVersion ++ [json_dumps_sorted params]
  sha256hex (String.intercalate "|" allParts)

/-- The closed banned set as claim C9 words it (seven names, no
`asyncio`). -/
def claimBannedSet : List String :=
  ["requests", "socket", "http.client", "urllib", "urllib3", "httpx", "aiohttp"]

/-- Membership per claim C9's import grammar: the banned module itself or
one of its submodules; a module whose name merely begins with a banned
name is not in the set. -/
def claimBannedModule (m : String) : Bool :=
  claimBannedSet.any (fun b => m == b || strStartsWith m (b ++ "."))

/-- The recomputation formula claim C7 states: SHA-256 of the previous
entry's hash concatenated with the canonical JSON of the stored entry
without its `hash` field — which therefore still carries `prevHash`. -/
def claimAuditHash (prevHash : String) (body : List (String × JVal)) : String :=
  sha256hex (prevHash ++ json_dumps_sorted (body ++ [("prevHash", .str prevHash)]))

/-! ## Concrete fixtures for witnesses and counterexamples -/

def noFiles : String → Option String := fun _ => none

def baseCfg : StageConfig :=
  { name := "stage_copy", inputs := [], params := [], idemEnabled := false,
    checkpointEnabled := false, maxAttempts := 1, retryableExitCodes := [],
    offlineGuard := true, useLock := true }

def baseWorld : StageWorld :=
  { files := noFiles, procMtime := some 0, procImports := [], processorExists := true,
    stageKey := none, stageLastStatus := none, markerExists := false, lockFree := true,
    exitCode := fun _ => 0, progressAfter := fun _ => none }

/-- A stage whose processor imports `socket` at top level. -/
def wOff : StageWorld := { baseWorld with procImports := [.imp ["socket"]] }

/-- A stage whose single attempt exits with code 1. -/
def wFail : StageWorld := { baseWorld with exitCode := fun _ => 1 }

/-- An idempotency-enabled stage carrying a stale stored key, whose
attempt fails. -/
def cfgIdem : StageConfig := { baseCfg with idemEnabled := true }

def wStale : StageWorld :=
  { baseWorld with stageKey := some "oldkey", exitCode := fun _ => 1 }

/-- A stage whose lock is already held by another process. -/
def wHeld : StageWorld := { baseWorld with lockFree := false }

/-- A checkpointed stage whose processor succeeds and leaves
`lineOffset = 7` in its progress file. -/
def cfgCkpt : StageConfig := { baseCfg with checkpointEnabled := true }

def wCkpt : StageWorld := { baseWorld with progressAfter := fun _ => some (some 7) }

/-- An idempotency-enabled stage whose stored key matches the fresh
fingerprint and whose completion marker exists: the skip path. -/
def wSkip : StageWorld :=
  { baseWorld with
    stageKey := some (compute_idempotency_key noFiles [] (some 0) [])
    markerExists := true }

/-- An audit entry body as `audit_log` builds it for a `start` event. -/
def bodyStart : List (String × JVal) :=
  [("ts", .str "2024-01-01T00:00:00"), ("stage", .str "stage_copy"),
   ("event", .str "start"), ("message", .str "Attempt 1")]

/-- An audit entry body for a `done` event. -/
def bodyDone : List (String × JVal) :=
  [("ts", .str "2024-01-01T00:00:01"), ("stage", .str "stage_copy"),
   ("event", .str "done"), ("message", .str "Duration 0.120s")]

/-! ## Sanity anchors for the executable embedding -/

example : sha256hex "abc" =
    "ba7816bf8f01cfea414140de5dae2223b00361a396177a9cb410ff61f20015ad" := by decide

example : json_dumps_sorted [("b", .num 2), ("a", .str "x")] =
    "\x7b\"a\": \"x\", \"b\": 2\x7d" := by decide

example : scan_for_banned_imports [.impFrom (some "http.client"), .imp ["json", "requests"]] =
    ["http.client", "requests"] := by decide

/-! ## Helper lemmas -/

/-- Every entered attempt begins by auditing `start`. -/
theorem attempt_loop_auditStart (cfg : StageConfig) (w : StageWorld)
    (fuel done : Nat) (h : 1 ≤ fuel) :
    Event.auditStart (done + 1) ∈ (run_attempt_loop cfg w fuel done).1 := by
  cases fuel with
  | zero => omega
  | succ n =>
    unfold run_attempt_loop
    repeat' split
    all_goals simp
    all_goals repeat' split
    all_goals simp

/-- With the lock held elsewhere, the first attempt blocks inside
`fcntl.flock` and the loop never proceeds. -/
theorem attempt_loop_blocked (cfg : StageConfig) (w : StageWorld)
    (fuel done : Nat) (h : 1 ≤ fuel)
    (hp : w.processorExists = true) (hl : cfg.useLock = true)
    (hf : w.lockFree = false) :
    run_attempt_loop cfg w fuel done = ([.auditStart (done + 1)], .blocked) := by
  cases fuel with
  | zero => omega
  | succ n => simp [run_attempt_loop, hp, hl, hf]

/-- The banned-import scan collects, in walk order, exactly the mentioned
module names that prefix-match the banned tuple. -/
theorem scan_foldl_acc (stmts : List PyImport) :
    ∀ acc : List String,
      stmts.foldl (fun acc st =>
        match st with
        | .imp names => acc ++ names.filter bannedPrefixMatch
        | .impFrom module =>
            let m := module.getD ""
            if bannedPrefixMatch m then acc ++ [m] else acc) acc =
      acc ++ stmts.flatMap (fun st => (importNames st).filter bannedPrefixMatch) := by
  induction stmts with
  | nil => simp
  | cons st rest ih =>
    intro acc
    cases st with
    | imp names => simp [importNames, ih]
    | impFrom module =>
      by_cases hb : bannedPrefixMatch (module.getD "") = true
      · simp [importNames, hb, ih, List.filter_cons]
      · simp only [Bool.not_eq_true] at hb
        simp [importNames, hb, ih, List.filter_cons]

theorem scan_eq_flatMap (stmts : List PyImport) :
    scan_for_banned_imports stmts =
      stmts.flatMap (fun st => (importNames st).filter bannedPrefixMatch) := by
  have h := scan_foldl_acc stmts []
  simpa [scan_for_banned_imports] using h

/-- The threaded hash of `lastHashD` is the hash of the chain's last
entry, `p` for the empty chain. -/
theorem lastHashD_eq_getLast (es : List AuditStored) :
    ∀ p, lastHashD p es =
      (match es.getLast? with
       | none => p
       | some e => e.hash) := by
  induction es with
  | nil => intro p; rfl
  | cons x xs ih =>
    intro p
    cases xs with
    | nil => rfl
    | cons y ys =>
      rw [List.getLast?_cons_cons]
      exact ih x.hash

/-- Sequential verification of a chain with one entry appended at the
end. -/
theorem audit_verify_append (e : AuditStored) (es : List AuditStored) :
    ∀ p, audit_verify p (es ++ [e]) = true ↔
      (audit_verify p es = true ∧ e.prevHash = lastHashD p es ∧
        e.hash = audit_entry_hash (lastHashD p es) e.body) := by
  induction es with
  | nil =>
    intro p
    simp [audit_verify, lastHashD]
  | cons x xs ih =>
    intro p
    simp only [List.cons_append, audit_verify, Bool.and_eq_true, beq_iff_eq,
      lastHashD, List.append_eq, ih x.hash]
    tauto

/-- When every entry of the file fits in the 4096-byte tail read, the
re-read previous hash is the last entry's true hash. -/
theorem read_prev_hash_eq (es : List AuditStored)
    (hfit : ∀ e ∈ es, audit_line_bytes e ≤ 4096) :
    read_prev_hash es = lastHashD "" es := by
  unfold read_prev_hash
  rw [lastHashD_eq_getLast es ""]
  cases hlast : es.getLast? with
  | none => rfl
  | some e => simp [hfit e (List.mem_of_getLast?_eq_some hlast)]

theorem audit_step_verify (es : List AuditStored) (b : List (String × JVal))
    (h : audit_verify "" es = true)
    (hfit : ∀ e ∈ es, audit_line_bytes e ≤ 4096) :
    audit_verify "" (audit_log_step es b) = true := by
  unfold audit_log_step
  refine (audit_verify_append _ es "").mpr ⟨h, ?_, ?_⟩
  · simp [audit_append, read_prev_hash_eq es hfit]
  · simp [audit_append, read_prev_hash_eq es hfit]

/-- `audit_log` only appends: entries present before some calls are still
present after them. -/
theorem audit_fold_mem (bodies : List (List (String × JVal))) :
    ∀ (es : List AuditStored) (e : AuditStored), e ∈ es →
      e ∈ bodies.foldl audit_log_step es := by
  induction bodies with
  | nil => intro es e h; exact h
  | cons b bs ih =>
    intro es e h
    exact ih (audit_log_step es b) e (List.mem_append_left _ h)

theorem audit_fold_verify (bodies : List (List (String × JVal))) :
    ∀ es, audit_verify "" es = true →
      (∀ e ∈ bodies.foldl audit_log_step es, audit_line_bytes e ≤ 4096) →
      audit_verify "" (bodies.foldl audit_log_step es) = true := by
  induction bodies with
  | nil => intro es h _; exact h
  | cons b bs ih =>
    intro es h hfit
    refine ih (audit_log_step es b) ?_ ?_
    · refine audit_step_verify es b h ?_
      intro e he
      exact hfit e (audit_fold_mem bs (audit_log_step es b) e (List.mem_append_left _ he))
    · exact hfit

/-! ## Claim C7 — audit hash chain -/

/-- C7 (counterexample): for the very first audit entry of a run, the
stored hash is not the SHA-256 of the previous hash concatenated with the
canonical JSON of the stored entry without only its `hash` field: that
serialization still contains the `prevHash` field, which `audit_log`
hashes before `prevHash` is added to the entry. -/
theorem C7_counterexample :
    audit_file [bodyStart] = [audit_append "" bodyStart] ∧
    (audit_append "" bodyStart).hash ≠ claimAuditHash "" bodyStart := by decide

/-- C7 (amended): every stored hash equals SHA-256 of the entry's stored
`prevHash` concatenated with the canonical JSON (keys sorted) of the entry
without its `hash` and `prevHash` fields, and — provided every appended
line fits within `audit_log`'s 4096-byte tail read — `prevHash` is the
previous entry's stored hash (empty string for the first entry), so one
sequential scan recomputing each hash from the preceding entry's hash and
the entry body reproduces every stored hash; an entry following a line
longer than the tail read is instead chained to the fallback `""`. -/
theorem C7_audit_chain_verifies (bodies : List (List (String × JVal)))
    (hfit : ∀ e ∈ audit_file bodies, audit_line_bytes e ≤ 4096) :
    audit_verify "" (audit_file bodies) = true :=
  audit_fold_verify bodies [] rfl hfit

theorem C7_witness :
    (∀ e ∈ audit_file [bodyStart, bodyDone], audit_line_bytes e ≤ 4096) ∧
    audit_verify "" (audit_file [bodyStart, bodyDone]) = true :=
  ⟨by decide, C7_audit_chain_verifies [bodyStart, bodyDone] (by decide)⟩

/-- The tail-read fallback is live in the model: an entry whose line
exceeds 4096 bytes is not read back, so the next append chains to `""`. -/
example (e : AuditStored) (h : 4096 < audit_line_bytes e) :
    read_prev_hash [e] = "" := by
  simp [read_prev_hash, List.getLast?, Nat.not_le_of_lt h]

/-! ## Claim C8 — idempotency key construction -/

/-- C8: for every filesystem, input list, processor mtime and params
mapping, `compute_idempotency_key` returns the SHA-256 hex digest of the
UTF-8 bytes of the `"|"`-joined contributions: per input, the content hash
or the token `missing`; then the version string `"v" + int(mtime)`; then,
only for non-empty params, the sorted-keys JSON encoding of params. -/
theorem C8_compute_key_matches_claim (files : String → Option String)
    (inputs : List String) (t : Int) (params : List (String × JVal)) :
    compute_idempotency_key files inputs (some t) params =
    claimComputeKey files inputs t params := by
  unfold compute_idempotency_key claimComputeKey get_processor_version sha256_file
  cases params <;> simp [List.isEmpty]

/-! ## Claim C9 — banned import matching -/

/-- C9 (counterexample): the scan flags `socketserver`, a module whose
name merely begins with the banned name `socket`, and flags `asyncio`,
which is outside the claim's closed seven-element banned set; the claim
says neither may be flagged. -/
theorem C9_counterexample :
    scan_for_banned_imports [.imp ["socketserver"]] = ["socketserver"] ∧
    claimBannedModule "socketserver" = false ∧
    scan_for_banned_imports [.imp ["asyncio"]] = ["asyncio"] ∧
    claimBannedModule "asyncio" = false := by decide

/-- C9 (amended): a module name appears in the scan result exactly when
some `import`/`from-import` node of the AST (at any nesting depth)
mentions it and its name string starts with one of the eight banned
prefixes `requests, socket, http.client, urllib, urllib3, httpx, aiohttp,
asyncio` (Python `str.startswith` on the tuple, so `socketserver` and
other extensions of a banned name are also flagged); names inside string
literals are never import nodes and are not flagged. -/
theorem C9_flagged_iff_prefix_match (stmts : List PyImport) (m : String) :
    m ∈ scan_for_banned_imports stmts ↔
      ∃ st ∈ stmts, m ∈ importNames st ∧ bannedPrefixMatch m = true := by
  rw [scan_eq_flatMap]
  simp [List.mem_flatMap, List.mem_filter]

/-! ## More helper lemmas on the executor -/

/-- When neither the offline guard fires nor the skip condition holds,
`run_stage` is the attempt loop followed by its finishing writes. -/
theorem run_stage_loop (cfg : StageConfig) (w : StageWorld)
    (hguard : (cfg.offlineGuard && !(scan_for_banned_imports w.procImports).isEmpty) = false)
    (hs : (cfg.idemEnabled && w.stageKey == some (stage_idem_key cfg w)
        && w.markerExists) = false) :
    run_stage cfg w = finish_stage cfg w (run_attempt_loop cfg w cfg.maxAttempts 0) := by
  unfold run_stage
  simp [hguard, hs]

theorem finalSavedKey_app_done (xs : List Event) (k s : Option String) :
    finalSavedKey (xs ++ [.saveStageState k s, .auditDone]) = some k := by
  unfold finalSavedKey
  rw [List.foldl_append]
  rfl

theorem finalSavedKey_app_failFinal (xs : List Event) (k s : Option String) (n : Nat) :
    finalSavedKey (xs ++ [.saveStageState k s, .auditFailFinal n]) = some k := by
  unfold finalSavedKey
  rw [List.foldl_append]
  rfl

/-! ## Claim C10 — the skip path writes nothing but one audit entry -/

/-- C10: on the skip path the executor's entire effect trace is the single
appended audit entry with event `skip`: it performs no StageState write
(so `stage_\x7bname\x7d.json` keeps its on-disk contents rather than being
rewritten with the loaded-and-defaulted history), no checkpoint write to
`progress_\x7bname\x7d.json`, and no completion-marker write. -/
theorem C10_skip_writes_only_audit (cfg : StageConfig) (w : StageWorld)
    (hguard : (cfg.offlineGuard && !(scan_for_banned_imports w.procImports).isEmpty) = false)
    (hs : (cfg.idemEnabled && w.stageKey == some (stage_idem_key cfg w)
        && w.markerExists) = true) :
    run_stage cfg w = ([.auditSkip], .skipped) := by
  unfold run_stage
  simp [hguard, hs]

theorem C10_witness :
    (baseCfg.offlineGuard && !(scan_for_banned_imports wSkip.procImports).isEmpty) = false ∧
    ({ baseCfg with idemEnabled := true }.idemEnabled
        && wSkip.stageKey == some (stage_idem_key { baseCfg with idemEnabled := true } wSkip)
        && wSkip.markerExists) = true ∧
    run_stage { baseCfg with idemEnabled := true } wSkip = ([.auditSkip], .skipped) :=
  ⟨by decide, by decide,
    C10_skip_writes_only_audit { baseCfg with idemEnabled := true } wSkip
      (by decide) (by decide)⟩

/-! ## Claim C1 — skip iff key matches and marker exists -/

/-- C1: for a stage with idempotency enabled (and whose offline guard does
not abort it first), the executor returns `skipped` iff the persisted
StageState `idempotencyKey` equals the freshly computed fingerprint AND
the completion marker exists; when either condition fails the stage enters
the attempt loop (its first attempt is started). -/
theorem C1_skip_iff_key_and_marker (cfg : StageConfig) (w : StageWorld)
    (hguard : (cfg.offlineGuard && !(scan_for_banned_imports w.procImports).isEmpty) = false)
    (hidem : cfg.idemEnabled = true)
    (hmax : 1 ≤ cfg.maxAttempts) :
    ((run_stage cfg w).2 = .skipped ↔
      w.stageKey = some (stage_idem_key cfg w) ∧ w.markerExists = true) ∧
    ((run_stage cfg w).2 ≠ .skipped → Event.auditStart 1 ∈ (run_stage cfg w).1) := by
  by_cases hs : (cfg.idemEnabled && w.stageKey == some (stage_idem_key cfg w)
      && w.markerExists) = true
  · have hcond : w.stageKey = some (stage_idem_key cfg w) ∧ w.markerExists = true := by
      simpa [hidem] using hs
    have hrs : run_stage cfg w = ([.auditSkip], .skipped) := by
      unfold run_stage
      simp [hguard, hs]
    rw [hrs]
    exact ⟨iff_of_true rfl hcond, fun hne => absurd rfl hne⟩
  · rw [Bool.not_eq_true] at hs
    have hcond : ¬(w.stageKey = some (stage_idem_key cfg w) ∧ w.markerExists = true) := by
      intro hc
      rw [hidem, hc.1, hc.2] at hs
      simp at hs
    rw [run_stage_loop cfg w hguard hs]
    have hmem := attempt_loop_auditStart cfg w cfg.maxAttempts 0 hmax
    constructor
    · apply iff_of_false
      · unfold finish_stage
        rcases hr : (run_attempt_loop cfg w cfg.maxAttempts 0).2 with k | k | k | k | _ <;>
          simp [hr]
      · exact hcond
    · intro _
      unfold finish_stage
      rcases hr : (run_attempt_loop cfg w cfg.maxAttempts 0).2 with k | k | k | k | _ <;>
        simp only [hr] <;>
        simp [List.mem_append, hmem]

theorem C1_witness :
    ({ baseCfg with idemEnabled := true }.offlineGuard
        && !(scan_for_banned_imports wSkip.procImports).isEmpty) = false ∧
    { baseCfg with idemEnabled := true }.idemEnabled = true ∧
    1 ≤ { baseCfg with idemEnabled := true }.maxAttempts ∧
    (((run_stage { baseCfg with idemEnabled := true } wSkip).2 = .skipped ↔
        wSkip.stageKey = some (stage_idem_key { baseCfg with idemEnabled := true } wSkip)
          ∧ wSkip.markerExists = true) ∧
      ((run_stage { baseCfg with idemEnabled := true } wSkip).2 ≠ .skipped →
        Event.auditStart 1 ∈ (run_stage { baseCfg with idemEnabled := true } wSkip).1)) :=
  ⟨by decide, by decide, by decide,
    C1_skip_iff_key_and_marker { baseCfg with idemEnabled := true } wSkip
      (by decide) (by decide) (by decide)⟩

/-! ## Claim C2 — offline guard violations -/

/-- C2 (counterexample): a stage with `offlineGuard` whose processor
imports `socket` does not produce a failed stage result: the
`RuntimeError` raised by `enforce_offline_guard` escapes `run_stage`
uncaught (no attempt is started, nothing is written), propagates through
`run_pipeline` — which therefore records no failed result, leaves the
persisted RunState at `running` and never audits `run_end` — and the
process dies with a traceback. -/
theorem C2_counterexample :
    run_stage baseCfg wOff = ([], .exnOfflineViolation ["socket"]) ∧
    run_pipeline [(baseCfg, wOff)] = ⟨[], .exnEscaped, "running", false⟩ ∧
    main_exit_code (run_pipeline [(baseCfg, wOff)]) = some 1 := by decide

/-- C2 (amended): for every stage with `offlineGuard` enabled whose
processor source contains a banned import, `run_stage` spawns no processor
subprocess and performs no retry attempt, but instead of returning a
failed result it raises an uncaught `RuntimeError`: `run_pipeline`
propagates it, so subsequent stages do not run, the run never reaches
state `failed` (the persisted RunState stays `running`, with no `run_end`
audit entry), and the process exits non-zero via the traceback. -/
theorem C2_offline_violation_escapes (cfg : StageConfig) (w : StageWorld)
    (rest : List (StageConfig × StageWorld))
    (hg : cfg.offlineGuard = true)
    (hb : scan_for_banned_imports w.procImports ≠ []) :
    run_stage cfg w = ([], .exnOfflineViolation (scan_for_banned_imports w.procImports)) ∧
    run_pipeline ((cfg, w) :: rest) = ⟨[], .exnEscaped, "running", false⟩ ∧
    main_exit_code (run_pipeline ((cfg, w) :: rest)) = some 1 := by
  have hne : (scan_for_banned_imports w.procImports).isEmpty = false := by
    cases hsc : scan_for_banned_imports w.procImports with
    | nil => exact absurd hsc hb
    | cons a l => rfl
  have h1 : run_stage cfg w =
      ([], .exnOfflineViolation (scan_for_banned_imports w.procImports)) := by
    unfold run_stage
    simp [hg, hne]
  have h2 : run_pipeline ((cfg, w) :: rest) = ⟨[], .exnEscaped, "running", false⟩ := by
    unfold run_pipeline run_pipeline_go
    rw [h1]
  exact ⟨h1, h2, by rw [h2]; rfl⟩

theorem C2_witness :
    run_stage baseCfg wOff =
      ([], .exnOfflineViolation (scan_for_banned_imports wOff.procImports)) ∧
    run_pipeline [(baseCfg, wOff)] = ⟨[], .exnEscaped, "running", false⟩ ∧
    main_exit_code (run_pipeline [(baseCfg, wOff)]) = some 1 :=
  C2_offline_violation_escapes baseCfg wOff [] (by decide) (by decide)

/-! ## Claim C3 — CLI exit code -/

/-- C3 (counterexample): a run whose only stage fails (processor exit 1,
one attempt) finishes with persisted run state `failed`, yet the process
exit code is `0`: `main` calls `run_pipeline` and ignores its result, and
no `sys.exit` is issued on the `failed` path. -/
theorem C3_counterexample :
    run_pipeline [(baseCfg, wFail)] =
      ⟨["failed"], .finished "failed", "failed", true⟩ ∧
    main_exit_code (run_pipeline [(baseCfg, wFail)]) = some 0 := by decide

/-- C3 (amended): the CLI exits `0` whenever `run_pipeline` returns
normally — both when the run completes and when it reaches state `failed`
— and exits non-zero only when an exception escapes (e.g. a missing
processor or an offline-guard violation). -/
theorem C3_exit_code (stages : List (StageConfig × StageWorld)) :
    ((run_pipeline stages).outcome = .finished "completed" →
      main_exit_code (run_pipeline stages) = some 0) ∧
    ((run_pipeline stages).outcome = .finished "failed" →
      main_exit_code (run_pipeline stages) = some 0) ∧
    ((run_pipeline stages).outcome = .exnEscaped →
      main_exit_code (run_pipeline stages) = some 1) := by
  unfold main_exit_code
  refine ⟨fun h => ?_, fun h => ?_, fun h => ?_⟩ <;> rw [h]

theorem C3_witness :
    (run_pipeline [(baseCfg, wFail)]).outcome = .finished "failed" ∧
    main_exit_code (run_pipeline [(baseCfg, wFail)]) = some 0 :=
  ⟨by decide, (C3_exit_code [(baseCfg, wFail)]).2.1 (by decide)⟩

/-! ## Claim C4 — idempotency key on failure -/

/-- C4 (counterexample): an idempotency-enabled stage whose single attempt
fails still has its persisted `idempotencyKey` overwritten with the fresh
fingerprint: the final StageState write after the loop sets the key
unconditionally, so the stale stored key `"oldkey"` is replaced although
the outcome is `failed`. -/
theorem C4_counterexample :
    wStale.stageKey = some "oldkey" ∧
    (run_stage cfgIdem wStale).2 = .failed 1 ∧
    finalSavedKey (run_stage cfgIdem wStale).1 =
      some (some (stage_idem_key cfgIdem wStale)) ∧
    stage_idem_key cfgIdem wStale ≠ "oldkey" := by decide

/-- C4 (amended): whenever the attempt loop finishes without an escaping
exception — outcome `ok` **or** `failed` — and idempotency is enabled, the
last StageState write records the freshly computed fingerprint as
`idempotencyKey`; the key is not reserved for successful outcomes. -/
theorem C4_key_always_overwritten (cfg : StageConfig) (w : StageWorld) (k : Nat)
    (hidem : cfg.idemEnabled = true)
    (h : (run_stage cfg w).2 = .ok k ∨ (run_stage cfg w).2 = .failed k) :
    finalSavedKey (run_stage cfg w).1 = some (some (stage_idem_key cfg w)) := by
  by_cases hg : (cfg.offlineGuard && !(scan_for_banned_imports w.procImports).isEmpty) = true
  · rcases h with h | h <;> (unfold run_stage at h; simp [hg] at h)
  · rw [Bool.not_eq_true] at hg
    by_cases hs : (cfg.idemEnabled && w.stageKey == some (stage_idem_key cfg w)
        && w.markerExists) = true
    · rcases h with h | h <;> (unfold run_stage at h; simp [hg, hs] at h)
    · rw [Bool.not_eq_true] at hs
      rw [run_stage_loop cfg w hg hs] at h ⊢
      unfold finish_stage at h ⊢
      rcases hr : (run_attempt_loop cfg w cfg.maxAttempts 0).2 with k' | k' | k' | k' | _ <;>
        simp only [hr] at h ⊢
      · simp [hidem, finalSavedKey_app_done]
      · simp [hidem, finalSavedKey_app_failFinal]
      · simp [hidem, finalSavedKey_app_failFinal]
      · rcases h with h | h <;> simp at h
      · rcases h with h | h <;> simp at h

theorem C4_witness :
    cfgIdem.idemEnabled = true ∧
    ((run_stage cfgIdem wStale).2 = .ok 1 ∨ (run_stage cfgIdem wStale).2 = .failed 1) ∧
    finalSavedKey (run_stage cfgIdem wStale).1 =
      some (some (stage_idem_key cfgIdem wStale)) :=
  ⟨by decide, Or.inr (by decide),
    C4_key_always_overwritten cfgIdem wStale 1 (by decide) (Or.inr (by decide))⟩

/-! ## Claim C5 — lock acquisition and timeouts -/

/-- C5 (counterexample): `FileLock.acquire` performs a plain blocking
`fcntl.flock(LOCK_EX)` with no timeout parameter and no `LockUnavailable`
error path: with the lock held elsewhere the stage blocks indefinitely
inside its first attempt — it never produces a failed stage result, the
run never finishes, and the process never exits. -/
theorem C5_counterexample :
    FileLock.acquire false = .blocksUntilReleased ∧
    run_stage baseCfg wHeld = ([.auditStart 1], .blockedForever) ∧
    run_pipeline [(baseCfg, wHeld)] = ⟨[], .blockedForever, "running", false⟩ ∧
    main_exit_code (run_pipeline [(baseCfg, wHeld)]) = none := by decide

/-- C5 (amended): for every stage with `useLock` enabled whose lock is
held by another process, lock acquisition blocks with no timeout: the
executor stops inside the first attempt (after auditing `start`) and
blocks until the holder releases the lock; no `LockUnavailable` failure is
ever produced. -/
theorem C5_lock_blocks_indefinitely (cfg : StageConfig) (w : StageWorld)
    (hguard : (cfg.offlineGuard && !(scan_for_banned_imports w.procImports).isEmpty) = false)
    (hs : (cfg.idemEnabled && w.stageKey == some (stage_idem_key cfg w)
        && w.markerExists) = false)
    (hp : w.processorExists = true) (hl : cfg.useLock = true)
    (hf : w.lockFree = false) (hmax : 1 ≤ cfg.maxAttempts) :
    run_stage cfg w = ([.auditStart 1], .blockedForever) := by
  rw [run_stage_loop cfg w hguard hs,
      attempt_loop_blocked cfg w cfg.maxAttempts 0 hmax hp hl hf]
  rfl

theorem C5_witness :
    (baseCfg.offlineGuard && !(scan_for_banned_imports wHeld.procImports).isEmpty) = false ∧
    (baseCfg.idemEnabled && wHeld.stageKey == some (stage_idem_key baseCfg wHeld)
        && wHeld.markerExists) = false ∧
    wHeld.processorExists = true ∧ baseCfg.useLock = true ∧
    wHeld.lockFree = false ∧ 1 ≤ baseCfg.maxAttempts ∧
    run_stage baseCfg wHeld = ([.auditStart 1], .blockedForever) :=
  ⟨by decide, by decide, by decide, by decide, by decide, by decide,
    C5_lock_blocks_indefinitely baseCfg wHeld
      (by decide) (by decide) (by decide) (by decide) (by decide) (by decide)⟩

/-! ## Claim C6 — checkpoint writes only after success -/

/-- Any checkpoint write in the attempt loop's trace stems from an attempt
whose processor exited `0` and whose progress file parsed. -/
theorem attempt_loop_checkpoint (cfg : StageConfig) (w : StageWorld) (v : Int) :
    ∀ fuel done : Nat,
      Event.writeCheckpoint v ∈ (run_attempt_loop cfg w fuel done).1 →
      cfg.checkpointEnabled = true ∧
      ∃ k, done + 1 ≤ k ∧ k ≤ done + fuel ∧ w.exitCode k = 0 ∧
        w.progressAfter k = some (some v) := by
  intro fuel
  induction fuel with
  | zero =>
    intro done h
    simp [run_attempt_loop] at h
  | succ n ih =>
    intro done h
    unfold run_attempt_loop at h
    cases hpe : w.processorExists with
    | false => simp [hpe] at h
    | true =>
      cases hl : (cfg.useLock && !w.lockFree) with
      | true => simp [hpe, hl] at h
      | false =>
        by_cases hec : w.exitCode (done + 1) = 0
        · simp only [hpe, hl] at h
          simp [hec] at h
          cases hce : cfg.checkpointEnabled with
          | false => simp [hce] at h
          | true =>
            simp [hce] at h
            cases hpa : w.progressAfter (done + 1) with
            | none => simp [hpa] at h
            | some o =>
              cases o with
              | none => simp [hpa] at h
              | some u =>
                simp [hpa] at h
                refine ⟨rfl, done + 1, by omega, by omega, hec, ?_⟩
                rw [hpa, h]
        · simp only [hpe, hl] at h
          simp [hec] at h
          by_cases hrb : should_retry cfg (done + 1) (w.exitCode (done + 1)) = true
              ∧ done + 1 < cfg.maxAttempts
          · simp [hrb] at h
            obtain ⟨hce, k, h1, h2, h3, h4⟩ := ih (done + 1) h
            exact ⟨hce, k, by omega, by omega, h3, h4⟩
          · simp [hrb] at h

/-- A checkpoint write survives `finish_stage` only if it was in the
loop's trace. -/
theorem finish_stage_checkpoint_mem (cfg : StageConfig) (w : StageWorld)
    (r : List Event × LoopRes) (v : Int) :
    Event.writeCheckpoint v ∈ (finish_stage cfg w r).1 →
    Event.writeCheckpoint v ∈ r.1 := by
  unfold finish_stage
  rcases hr : r.2 with k | k | k | k | _ <;> simp [hr, List.mem_append]

/-- C6: every write of `progress_\x7bname\x7d.json` the engine performs
during a stage execution comes from an attempt whose processor exit code
was `0` (and whose progress file parsed with that offset): the engine
never writes the checkpoint on a failed attempt. -/
theorem C6_checkpoint_only_after_exit_zero (cfg : StageConfig) (w : StageWorld) (v : Int)
    (h : Event.writeCheckpoint v ∈ (run_stage cfg w).1) :
    cfg.checkpointEnabled = true ∧
    ∃ k, 1 ≤ k ∧ k ≤ cfg.maxAttempts ∧ w.exitCode k = 0 ∧
      w.progressAfter k = some (some v) := by
  by_cases hg : (cfg.offlineGuard && !(scan_for_banned_imports w.procImports).isEmpty) = true
  · unfold run_stage at h
    simp [hg] at h
  · rw [Bool.not_eq_true] at hg
    by_cases hs : (cfg.idemEnabled && w.stageKey == some (stage_idem_key cfg w)
        && w.markerExists) = true
    · unfold run_stage at h
      simp [hg, hs] at h
    · rw [Bool.not_eq_true] at hs
      rw [run_stage_loop cfg w hg hs] at h
      have hloop := finish_stage_checkpoint_mem cfg w
        (run_attempt_loop cfg w cfg.maxAttempts 0) v h
      obtain ⟨hce, k, h1, h2, h3, h4⟩ :=
        attempt_loop_checkpoint cfg w v cfg.maxAttempts 0 hloop
      exact ⟨hce, k, by omega, by omega, h3, h4⟩

theorem C6_witness :
    Event.writeCheckpoint 7 ∈ (run_stage cfgCkpt wCkpt).1 ∧
    (cfgCkpt.checkpointEnabled = true ∧
      ∃ k, 1 ≤ k ∧ k ≤ cfgCkpt.maxAttempts ∧ wCkpt.exitCode k = 0 ∧
        wCkpt.progressAfter k = some (some 7)) :=
  ⟨by decide, C6_checkpoint_only_after_exit_zero cfgCkpt wCkpt 7 (by decide)⟩

end PipelineRunner
